import Mathlib

/-!
Verification of the WinRate automation bot (multithread_winrate.py and
multithreaded_gui_config.py) against its natural-language specification.

The embedding below models:
  * Python numbers appearing in ROI tuples as a sum of machine integers and
    rationals (`PyNum`); Python's `int()` truncation toward zero is `pyInt`;
  * the ROI-resolution and clamping prologue of `best_match` (`resolveROI`);
  * the multi-scale template scan of `best_match`, with external OpenCV calls
    (equalizeHist, resize, matchTemplate) represented by an oracle environment
    `CvEnv` whose failure outcomes are arbitrary (`Option`-valued results);
  * the batch scheduler `run_batch_template_checks` with per-task outcomes as
    an `Except`-valued oracle and CPython's `ThreadPoolExecutor` constraint
    that `max_workers` must be positive;
  * the mode flags and their setters / GUI toggles / hotkey callbacks;
  * one post-batch cycle of the sequencer `limbus_bot` as a pure function
    producing the list of issued actions and the updated flags;
  * the mouse-shake failsafe as a step function on a small state record
    (the Euclidean distance test is expressed on squared distances, which is
    equivalent since both sides are nonnegative).
-/

namespace WinRate

/-- A Python number as it appears in an ROI tuple: either an `int` or a
`float` (modelled as a rational). `isinstance(v, float)` distinguishes the
two constructors. -/
inductive PyNum where
  | int (n : Int)
  | flt (q : ℚ)
deriving DecidableEq

/-- Numeric value of a `PyNum`. -/
def PyNum.toQ : PyNum → ℚ
  | .int n => (n : ℚ)
  | .flt q => q

/-- The fraction test used by `best_match`: `isinstance(v, float) and v <= 1.0`. -/
def PyNum.isFrac : PyNum → Bool
  | .int _ => false
  | .flt q => decide (q ≤ 1)

/-- Python `int()` applied to a real value: truncation toward zero. On a
rational in lowest terms with positive denominator this is the
truncating division of the numerator by the denominator. -/
def pyInt (q : ℚ) : Int := q.num.tdiv q.den

/-- Sanity link: on nonnegative rationals `pyInt` is the floor. -/
theorem pyInt_nonneg_eq_floor (q : ℚ) (h : 0 ≤ q) : pyInt q = ⌊q⌋ := by
  have hnum : 0 ≤ q.num := Rat.num_nonneg.mpr h
  rw [Rat.floor_def, pyInt]
  match q.num, hnum with
  | .ofNat n, _ => rfl

/-- An ROI tuple `(x, y, w, h)` of Python numbers. -/
abbrev ROI := PyNum × PyNum × PyNum × PyNum

/-- The test `any(isinstance(v, float) and v <= 1.0 for v in (x_r, y_r, w_r, h_r))`. -/
def anyFrac (r : ROI) : Bool :=
  r.1.isFrac || r.2.1.isFrac || r.2.2.1.isFrac || r.2.2.2.isFrac

/-- The resolved, clamped ROI rectangle of `best_match`, in pixel units
(kept rational because Python keeps non-fraction `float` components as-is). -/
structure ResolvedROI where
  x : ℚ
  y : ℚ
  w : ℚ
  h : ℚ
deriving DecidableEq

/-- ROI resolution prologue of `best_match` (multithread_winrate.py lines
328-339): if any component is a fraction, scale x and w by the frame width
and y and h by the frame height through `int(...)`; then clamp `x, y` to be
nonnegative and shrink `w, h` so the rectangle stays inside the frame. -/
def resolveROI (r : ROI) (W H : Nat) : ResolvedROI :=
  let x0 : ℚ := if anyFrac r then ((pyInt (r.1.toQ * W) : Int) : ℚ) else r.1.toQ
  let y0 : ℚ := if anyFrac r then ((pyInt (r.2.1.toQ * H) : Int) : ℚ) else r.2.1.toQ
  let w0 : ℚ := if anyFrac r then ((pyInt (r.2.2.1.toQ * W) : Int) : ℚ) else r.2.2.1.toQ
  let h0 : ℚ := if anyFrac r then ((pyInt (r.2.2.2.toQ * H) : Int) : ℚ) else r.2.2.2.toQ
  let x1 := max 0 x0
  let y1 := max 0 y0
  let w1 := min w0 ((W : ℚ) - x1)
  let h1 := min h0 ((H : ℚ) - y1)
  ⟨x1, y1, w1, h1⟩

/-- One loaded template variant: `None` in the variants list, an array whose
shape has fewer than two axes, or a proper image with height and width. -/
inductive VarImg where
  | noneImg
  | badShape
  | img (th tw : Nat)
deriving DecidableEq

/-- A template entry: loaded variants, threshold, optional ROI
(the `Tmpl` namedtuple; masks are never read by `best_match`). -/
structure Tmpl where
  imgs : List VarImg
  thresh : ℚ
  roi : Option ROI

/-- Oracle for the OpenCV calls made by `best_match`: whether equalizing the
screen region succeeds, whether resize+equalize of a given (variant, scale)
pair succeeds, and the result of `matchTemplate`/`minMaxLoc` for that pair
(`none` models a raised `cv2.error`; otherwise the best value and location). -/
structure CvEnv where
  eqHistOk : Bool
  resizeOk : Nat → ℚ → Bool
  corr : Nat → ℚ → Option (ℚ × Int × Int)

/-- The fixed multi-scale search set `[0.9, 1.0, 1.1]`. -/
def scalesToTry : List ℚ := [9/10, 1, 11/10]

/-- Loop accumulator of the multi-scale scan: best correlation value so far,
its location inside the region, and the scaled template size that achieved it. -/
structure ScanAcc where
  bestVal : ℚ
  bestLoc : Option (Int × Int)
  bestSz : Option (Int × Int)
deriving DecidableEq

/-- Body of the inner scale loop of `best_match` (lines 382-421): skip
non-image variants, skip (variant, scale) pairs whose scaled size is
non-positive or exceeds the region, skip resize and correlation failures,
and keep the strictly larger correlation value. -/
def tryScale (env : CvEnv) (rh rw : ℚ) (idx : Nat) (v : VarImg)
    (acc : ScanAcc) (scale : ℚ) : ScanAcc :=
  match v with
  | .noneImg => acc
  | .badShape => acc
  | .img th_o tw_o =>
    let tw_s : Int := pyInt ((tw_o : ℚ) * scale)
    let th_s : Int := pyInt ((th_o : ℚ) * scale)
    if tw_s ≤ 0 ∨ th_s ≤ 0 ∨ (th_s : ℚ) > rh ∨ (tw_s : ℚ) > rw then acc
    else if env.resizeOk idx scale = false then acc
    else if (th_s : ℚ) > rh ∨ (tw_s : ℚ) > rw then acc
    else
      match env.corr idx scale with
      | none => acc
      | some (v_cur, lx, ly) =>
        if v_cur > acc.bestVal then ⟨v_cur, some (lx, ly), some (tw_s, th_s)⟩
        else acc

/-- Outer variant loop of `best_match`, threading the variant index like
`enumerate(tmpl_obj.imgs)`. -/
def scanVariants (env : CvEnv) (rh rw : ℚ) : Nat → List VarImg → ScanAcc → ScanAcc
  | _, [], acc => acc
  | idx, v :: rest, acc =>
      scanVariants env rh rw (idx + 1) rest
        (scalesToTry.foldl (tryScale env rh rw idx v) acc)

/-- The whole multi-scale scan of `best_match`, starting from the sentinel
accumulator `(-1, no location, no size)`. -/
def scanTemplate (env : CvEnv) (rh rw : ℚ) (imgs : List VarImg) : ScanAcc :=
  scanVariants env rh rw 0 imgs ⟨-1, none, none⟩

/-- Observable outcome of one `best_match` call: the score written to
`last_vals[name]`, the optional score written to `last_pass[name]`, and the
returned center location in full-frame coordinates. -/
structure MatchOut where
  lastVal : ℚ
  lastPass : Option ℚ
  result : Option (ℚ × ℚ)
deriving DecidableEq

/-- Core of `best_match` after the region has been cropped (lines 351-437):
empty-region check, screen equalization, empty-variant check, the scan, the
threshold decision, and the center-point computation. -/
def bmMain (env : CvEnv) (tmpl : Tmpl) (x y rh rw : ℚ) : MatchOut :=
  if rh * rw = 0 then ⟨-1, none, none⟩
  else if env.eqHistOk = false then ⟨-1, none, none⟩
  else if tmpl.imgs = [] then ⟨-1, none, none⟩
  else
    let acc := scanTemplate env rh rw tmpl.imgs
    if acc.bestVal < tmpl.thresh then ⟨acc.bestVal, none, none⟩
    else
      match acc.bestLoc, acc.bestSz with
      | some (lx, ly), some (tw, th) =>
          ⟨acc.bestVal, some acc.bestVal,
            some (x + ((lx + Int.fdiv tw 2 : Int) : ℚ), y + ((ly + Int.fdiv th 2 : Int) : ℚ))⟩
      | _, _ => ⟨acc.bestVal, some acc.bestVal, none⟩

/-- Embedding of `best_match` on a frame of width `W` and height `H`: resolve and clamp
the ROI when present (returning the sentinel when the rectangle is
non-positive), otherwise search the whole frame. The embedding is a total
function: every failure path of the source returns the sentinel rather than
raising. -/
def best_match (env : CvEnv) (W H : Nat) (tmpl : Tmpl) : MatchOut :=
  match tmpl.roi with
  | some r =>
    let rr := resolveROI r W H
    if rr.w ≤ 0 ∨ rr.h ≤ 0 then ⟨-1, none, none⟩
    else bmMain env tmpl rr.x rr.y rr.h rr.w
  | none => bmMain env tmpl 0 0 (H : ℚ) (W : ℚ)

/-- C6: ROI resolution in `match`. If any of the four ROI components is a
fraction (a float ≤ 1.0), all of x and w are scaled by the frame width and
y and h by the frame height (through Python `int()`); if no component is a
fraction the four values are used unchanged; afterwards x and y are clamped
to ≥ 0 and w and h are reduced (by `min`) so that the rectangle stays inside
the frame: `x + w ≤ W` and `y + h ≤ H`. -/
theorem roi_resolution_spec (r : ROI) (W H : Nat) :
    (anyFrac r = true →
      (resolveROI r W H).x = max 0 ((pyInt (r.1.toQ * W) : Int) : ℚ) ∧
      (resolveROI r W H).y = max 0 ((pyInt (r.2.1.toQ * H) : Int) : ℚ) ∧
      (resolveROI r W H).w =
        min ((pyInt (r.2.2.1.toQ * W) : Int) : ℚ) ((W : ℚ) - (resolveROI r W H).x) ∧
      (resolveROI r W H).h =
        min ((pyInt (r.2.2.2.toQ * H) : Int) : ℚ) ((H : ℚ) - (resolveROI r W H).y)) ∧
    (anyFrac r = false →
      (resolveROI r W H).x = max 0 r.1.toQ ∧
      (resolveROI r W H).y = max 0 r.2.1.toQ ∧
      (resolveROI r W H).w = min r.2.2.1.toQ ((W : ℚ) - (resolveROI r W H).x) ∧
      (resolveROI r W H).h = min r.2.2.2.toQ ((H : ℚ) - (resolveROI r W H).y)) ∧
    0 ≤ (resolveROI r W H).x ∧ 0 ≤ (resolveROI r W H).y ∧
    (resolveROI r W H).x + (resolveROI r W H).w ≤ (W : ℚ) ∧
    (resolveROI r W H).y + (resolveROI r W H).h ≤ (H : ℚ) := by
  have hx : 0 ≤ (resolveROI r W H).x := le_max_left 0 _
  have hy : 0 ≤ (resolveROI r W H).y := le_max_left 0 _
  have hw : (resolveROI r W H).w ≤ (W : ℚ) - (resolveROI r W H).x := min_le_right _ _
  have hh : (resolveROI r W H).h ≤ (H : ℚ) - (resolveROI r W H).y := min_le_right _ _
  refine ⟨fun hf => ?_, fun hf => ?_, hx, hy, by linarith, by linarith⟩
  · simp [resolveROI, hf]
  · simp [resolveROI, hf]

/-- Witness for `roi_resolution_spec` at the fractional ROI
`(0.5, 0.0, 0.5, 0.3)` of the `winrate` template on a 1920×1080 frame. -/
theorem roi_resolution_spec_witness :
    (resolveROI (.flt (1/2), .flt 0, .flt (1/2), .flt (3/10)) 1920 1080).x =
      max 0 ((pyInt ((PyNum.flt (1/2)).toQ * (1920 : Nat)) : Int) : ℚ) ∧
    0 ≤ (resolveROI (.flt (1/2), .flt 0, .flt (1/2), .flt (3/10)) 1920 1080).x ∧
    (resolveROI (.flt (1/2), .flt 0, .flt (1/2), .flt (3/10)) 1920 1080).x +
      (resolveROI (.flt (1/2), .flt 0, .flt (1/2), .flt (3/10)) 1920 1080).w ≤ (1920 : ℚ) := by
  have h := roi_resolution_spec (.flt (1/2), .flt 0, .flt (1/2), .flt (3/10)) 1920 1080
  exact ⟨(h.1 (by norm_num [anyFrac, PyNum.isFrac])).1, h.2.2.1, h.2.2.2.2.1⟩

/-- C4: a template entry whose resolved, clamped ROI has width ≤ 0 or
height ≤ 0, or whose cropped region is empty, yields the sentinel outcome:
score −1 recorded in the observability map, no `lastPass` entry, and no
location. The embedding is a total function, so no exception is possible on
this path. -/
theorem invalid_roi_sentinel (env : CvEnv) (W H : Nat) (tmpl : Tmpl)
    (h : (∃ r, tmpl.roi = some r ∧
            ((resolveROI r W H).w ≤ 0 ∨ (resolveROI r W H).h ≤ 0)) ∨
         (tmpl.roi = none ∧ W * H = 0)) :
    best_match env W H tmpl = ⟨-1, none, none⟩ := by
  rcases h with ⟨r, hr, hbad⟩ | ⟨hr, hWH⟩
  · simp only [best_match, hr, if_pos hbad]
  · have hq : (H : ℚ) * (W : ℚ) = 0 := by
      rcases Nat.mul_eq_zero.mp hWH with h0 | h0 <;> simp [h0]
    simp only [best_match, hr, bmMain, if_pos hq]

/-- Witness for `invalid_roi_sentinel`: the out-of-range fractional ROI
`(0.5, 0.5, -0.2, 0.3)` on a 100×100 frame resolves to width −20 ≤ 0, so
`best_match` returns the sentinel. -/
theorem invalid_roi_sentinel_witness :
    best_match ⟨true, fun _ _ => true, fun _ _ => none⟩ 100 100
      ⟨[.img 10 10], 8/10, some (.flt (1/2), .flt (1/2), .flt (-1/5), .flt (3/10))⟩ =
      ⟨-1, none, none⟩ := by
  apply invalid_roi_sentinel
  left
  refine ⟨(.flt (1/2), .flt (1/2), .flt (-1/5), .flt (3/10)), rfl, Or.inl ?_⟩
  simp only [resolveROI, anyFrac, PyNum.isFrac, PyNum.toQ]
  norm_num [pyInt]

/-- Whether a (variant, scale) pair fits the region: the variant is a proper
image whose scaled size is positive and no larger than the cropped region
(the skip test of lines 383-393, negated). -/
def pairFits (rh rw : ℚ) (v : VarImg) (scale : ℚ) : Bool :=
  match v with
  | .noneImg => false
  | .badShape => false
  | .img th_o tw_o =>
    let tw_s : Int := pyInt ((tw_o : ℚ) * scale)
    let th_s : Int := pyInt ((th_o : ℚ) * scale)
    !(decide (tw_s ≤ 0) || decide (th_s ≤ 0) ||
      decide ((th_s : ℚ) > rh) || decide ((tw_s : ℚ) > rw))

/-- The correlation score actually obtained for a (variant, scale) pair:
`some` exactly when the pair fits, its resize succeeds, and its correlation
call succeeds; the pair is otherwise skipped. -/
def pairScore (env : CvEnv) (rh rw : ℚ) (idx : Nat) (v : VarImg) (scale : ℚ) : Option ℚ :=
  if pairFits rh rw v scale && env.resizeOk idx scale then
    match env.corr idx scale with
    | some (q, _, _) => some q
    | none => none
  else none

/-- All (variant index, variant, scale) pairs visited by the nested loops,
in loop order. -/
def allPairs : Nat → List VarImg → List (Nat × VarImg × ℚ)
  | _, [] => []
  | idx, v :: rest => scalesToTry.map (fun s => (idx, v, s)) ++ allPairs (idx + 1) rest

/-- The correlation values of all (variant, scale) pairs actually tried. -/
def triedScores (env : CvEnv) (rh rw : ℚ) (imgs : List VarImg) : List ℚ :=
  (allPairs 0 imgs).filterMap (fun p => pairScore env rh rw p.1 p.2.1 p.2.2)

/-- The best value kept by one `tryScale` step is the running maximum over
the pair's obtained score, when any. -/
theorem tryScale_bestVal (env : CvEnv) (rh rw : ℚ) (idx : Nat) (v : VarImg)
    (acc : ScanAcc) (scale : ℚ) :
    (tryScale env rh rw idx v acc scale).bestVal =
      match pairScore env rh rw idx v scale with
      | none => acc.bestVal
      | some q => max acc.bestVal q := by
  rcases v with _ | _ | ⟨th_o, tw_o⟩
  · simp [tryScale, pairScore, pairFits]
  · simp [tryScale, pairScore, pairFits]
  · simp only [tryScale, pairScore, pairFits]
    by_cases hskip : pyInt ((tw_o : ℚ) * scale) ≤ 0 ∨ pyInt ((th_o : ℚ) * scale) ≤ 0 ∨
        ((pyInt ((th_o : ℚ) * scale) : Int) : ℚ) > rh ∨
        ((pyInt ((tw_o : ℚ) * scale) : Int) : ℚ) > rw
    · rw [if_pos hskip]
      have hfit : (!(decide (pyInt ((tw_o : ℚ) * scale) ≤ 0) ||
          decide (pyInt ((th_o : ℚ) * scale) ≤ 0) ||
          decide (((pyInt ((th_o : ℚ) * scale) : Int) : ℚ) > rh) ||
          decide (((pyInt ((tw_o : ℚ) * scale) : Int) : ℚ) > rw))) = false := by
        rcases hskip with h | h | h | h <;> simp [h]
      simp [hfit]
    · rw [if_neg hskip]
      push_neg at hskip
      obtain ⟨h1, h2, h3, h4⟩ := hskip
      have hfit : (!(decide (pyInt ((tw_o : ℚ) * scale) ≤ 0) ||
          decide (pyInt ((th_o : ℚ) * scale) ≤ 0) ||
          decide (((pyInt ((th_o : ℚ) * scale) : Int) : ℚ) > rh) ||
          decide (((pyInt ((tw_o : ℚ) * scale) : Int) : ℚ) > rw))) = true := by
        simp [h1, h2, not_lt.mpr h3, not_lt.mpr h4]
      rcases hres : env.resizeOk idx scale with _ | _
      · simp [hres, hfit]
      · rw [if_neg (by simp [hres])]
        rw [if_neg (by push_neg; exact ⟨h3, h4⟩)]
        simp only [hfit, hres, Bool.and_self, if_pos]
        rcases hcorr : env.corr idx scale with _ | ⟨⟨q, lx, ly⟩⟩
        · simp
        · simp only []
          rcases lt_or_ge acc.bestVal q with hq | hq
          · simp [if_pos hq, max_eq_right (le_of_lt hq)]
          · rw [if_neg (not_lt.mpr hq), max_eq_left hq]

/-- Folding `tryScale` over the scale list accumulates the maximum of the
scores obtained over those scales. -/
theorem scaleFold_bestVal (env : CvEnv) (rh rw : ℚ) (idx : Nat) (v : VarImg) :
    ∀ (l : List ℚ) (acc : ScanAcc),
      (l.foldl (tryScale env rh rw idx v) acc).bestVal =
        (l.filterMap (pairScore env rh rw idx v)).foldl max acc.bestVal
  | [], acc => rfl
  | s :: t, acc => by
    rw [List.foldl_cons, List.filterMap_cons]
    rcases hp : pairScore env rh rw idx v s with _ | q
    · rw [scaleFold_bestVal env rh rw idx v t (tryScale env rh rw idx v acc s)]
      have := tryScale_bestVal env rh rw idx v acc s
      rw [hp] at this
      rw [this]
    · rw [scaleFold_bestVal env rh rw idx v t (tryScale env rh rw idx v acc s)]
      have := tryScale_bestVal env rh rw idx v acc s
      rw [hp] at this
      rw [this, List.foldl_cons]

/-- The variant loop accumulates the maximum over all pairs of all variants. -/
theorem scanVariants_bestVal (env : CvEnv) (rh rw : ℚ) :
    ∀ (imgs : List VarImg) (idx : Nat) (acc : ScanAcc),
      (scanVariants env rh rw idx imgs acc).bestVal =
        ((allPairs idx imgs).filterMap
          (fun p => pairScore env rh rw p.1 p.2.1 p.2.2)).foldl max acc.bestVal
  | [], _, _ => rfl
  | v :: rest, idx, acc => by
    rw [scanVariants, allPairs, List.filterMap_append, List.foldl_append,
      scanVariants_bestVal env rh rw rest (idx + 1)
        (scalesToTry.foldl (tryScale env rh rw idx v) acc),
      scaleFold_bestVal env rh rw idx v scalesToTry acc,
      List.filterMap_map]
    rfl

/-- Left fold of `max` stays in the extended list. -/
theorem foldl_max_mem (a : ℚ) (l : List ℚ) : l.foldl max a ∈ a :: l := by
  induction l generalizing a with
  | nil => simp
  | cons b t ih =>
    rw [List.foldl_cons, List.mem_cons]
    rcases max_choice a b with hm | hm
    · rw [hm]
      rcases List.mem_cons.mp (ih a) with h | h <;> simp [h]
    · rw [hm]
      rcases List.mem_cons.mp (ih b) with h | h <;> simp [h]

/-- Every element folded over is bounded by the fold of `max`. -/
theorem le_foldl_max (a : ℚ) (l : List ℚ) : ∀ x ∈ a :: l, x ≤ l.foldl max a := by
  induction l generalizing a with
  | nil => intro x hx; simp at hx; simp [hx]
  | cons b t ih =>
    intro x hx
    rw [List.foldl_cons]
    rcases List.mem_cons.mp hx with h | h
    · subst h
      exact le_trans (le_max_left x b) (ih (max x b) (max x b) (by simp))
    · rcases List.mem_cons.mp h with h2 | h2
      · subst h2
        exact le_trans (le_max_right a x) (ih (max a x) (max a x) (by simp))
      · exact ih (max a b) x (by simp [h2])

/-- When every element dominates the seed and the list is nonempty, the fold
of `max` is an element of the list. -/
theorem foldl_max_mem_of_le (a : ℚ) (l : List ℚ) (hne : l ≠ [])
    (hb : ∀ q ∈ l, a ≤ q) : l.foldl max a ∈ l := by
  rcases l with _ | ⟨b, t⟩
  · exact absurd rfl hne
  · rw [List.foldl_cons, max_eq_right (hb b (by simp))]
    exact foldl_max_mem b t

/-- A score obtained for a pair comes from a successful correlation call. -/
theorem pairScore_corr (env : CvEnv) (rh rw : ℚ) (idx : Nat) (v : VarImg)
    (scale : ℚ) (q : ℚ) (h : pairScore env rh rw idx v scale = some q) :
    ∃ lx ly, env.corr idx scale = some (q, lx, ly) := by
  rw [pairScore] at h
  by_cases hc : (pairFits rh rw v scale && env.resizeOk idx scale) = true
  · rw [if_pos hc] at h
    rcases hcorr : env.corr idx scale with _ | ⟨⟨q0, lx, ly⟩⟩
    · rw [hcorr] at h; exact absurd h (by simp)
    · rw [hcorr] at h
      simp only [Option.some.injEq] at h
      subst h
      exact ⟨lx, ly, rfl⟩
  · rw [if_neg hc] at h; exact absurd h (by simp)

/-- C7: the multi-scale search tries each loaded variant at each scale in
{0.9, 1.0, 1.1}; pairs whose scaled size is non-positive or exceeds the
region, and pairs whose resize or correlation fails, are skipped while the
remaining pairs are still searched; the reported score is the single best
correlation value over the pairs actually tried, and the sentinel −1 when
no pair was tried. The hypothesis records that normalized correlation
values are at least −1, which `cv2.TM_CCOEFF_NORMED` guarantees. -/
theorem multiscale_best_score (env : CvEnv) (rh rw : ℚ) (imgs : List VarImg)
    (hc : ∀ i s q lx ly, env.corr i s = some (q, lx, ly) → (-1 : ℚ) ≤ q) :
    (triedScores env rh rw imgs = [] → (scanTemplate env rh rw imgs).bestVal = -1) ∧
    (triedScores env rh rw imgs ≠ [] →
      (scanTemplate env rh rw imgs).bestVal ∈ triedScores env rh rw imgs ∧
      ∀ q ∈ triedScores env rh rw imgs, q ≤ (scanTemplate env rh rw imgs).bestVal) := by
  have hval : (scanTemplate env rh rw imgs).bestVal =
      (triedScores env rh rw imgs).foldl max (-1) := by
    rw [scanTemplate, scanVariants_bestVal env rh rw imgs 0 ⟨-1, none, none⟩]
    rfl
  have hbound : ∀ q ∈ triedScores env rh rw imgs, (-1 : ℚ) ≤ q := by
    intro q hq
    rw [triedScores] at hq
    obtain ⟨p, _, hp⟩ := List.mem_filterMap.mp hq
    obtain ⟨lx, ly, hcorr⟩ := pairScore_corr env rh rw p.1 p.2.1 p.2.2 q hp
    exact hc p.1 p.2.2 q lx ly hcorr
  constructor
  · intro hnil; rw [hval, hnil]; rfl
  · intro hne
    refine ⟨?_, ?_⟩
    · rw [hval]; exact foldl_max_mem_of_le (-1) _ hne hbound
    · intro q hq; rw [hval]
      exact le_foldl_max (-1) _ q (by simp [hq])

/-- Witness for `multiscale_best_score`: one variant, correlation succeeding
at scales 0.9 and 1.1 with scores 0.5 and 0.7 and failing at scale 1.0; the
reported score is 0.7, the maximum over the two tried pairs. -/
theorem multiscale_best_score_witness :
    triedScores
        ⟨true, fun _ _ => true,
          fun _ s => if s = 1 then none
            else if s = 9/10 then some (1/2, 0, 0) else some (7/10, 1, 1)⟩
        30 30 [.img 10 20] ≠ [] ∧
      (scanTemplate
        ⟨true, fun _ _ => true,
          fun _ s => if s = 1 then none
            else if s = 9/10 then some (1/2, 0, 0) else some (7/10, 1, 1)⟩
        30 30 [.img 10 20]).bestVal ∈
        triedScores
          ⟨true, fun _ _ => true,
            fun _ s => if s = 1 then none
              else if s = 9/10 then some (1/2, 0, 0) else some (7/10, 1, 1)⟩
          30 30 [.img 10 20] := by
  have hne : triedScores
      ⟨true, fun _ _ => true,
        fun _ s => if s = 1 then none
          else if s = 9/10 then some (1/2, 0, 0) else some (7/10, 1, 1)⟩
      30 30 [.img 10 20] ≠ [] := by
    have he : triedScores
        ⟨true, fun _ _ => true,
          fun _ s => if s = 1 then none
            else if s = 9/10 then some (1/2, 0, 0) else some (7/10, 1, 1)⟩
        30 30 [.img 10 20] = [1/2, 7/10] := by
      norm_num [triedScores, allPairs, scalesToTry, pairScore, pairFits, pyInt,
        List.filterMap_cons, List.filterMap_nil]
    rw [he]
    simp
  have h := (multiscale_best_score
      ⟨true, fun _ _ => true,
        fun _ s => if s = 1 then none
          else if s = 9/10 then some (1/2, 0, 0) else some (7/10, 1, 1)⟩
      30 30 [.img 10 20]
      (by
        intro i s q lx ly h
        simp only at h
        by_cases h1 : s = 1
        · rw [if_pos h1] at h; exact absurd h (by simp)
        · rw [if_neg h1] at h
          by_cases h2 : s = 9/10
          · rw [if_pos h2] at h
            simp only [Option.some.injEq, Prod.mk.injEq] at h
            rw [← h.1]; norm_num
          · rw [if_neg h2] at h
            simp only [Option.some.injEq, Prod.mk.injEq] at h
            rw [← h.1]; norm_num)).2 hne
  exact ⟨hne, h.1⟩

/-- C5 (amended): after the search, the best score is stored in the
observability map; below threshold the call returns no location (score still
stored, no `lastPass` entry); otherwise the passing score is stored in
`lastPass` and, when a best location exists, the returned location is the
best top-left plus half the matched size, offset by the ROI origin; when no
comparison succeeded (no best location) the call returns no location even
though the sentinel score is recorded in `lastPass`. -/
theorem match_decision_spec (env : CvEnv) (tmpl : Tmpl) (x y rh rw : ℚ)
    (hsz : ¬ rh * rw = 0) (heq : env.eqHistOk = true) (him : ¬ tmpl.imgs = []) :
    (bmMain env tmpl x y rh rw).lastVal = (scanTemplate env rh rw tmpl.imgs).bestVal ∧
    ((scanTemplate env rh rw tmpl.imgs).bestVal < tmpl.thresh →
      (bmMain env tmpl x y rh rw).lastPass = none ∧
      (bmMain env tmpl x y rh rw).result = none) ∧
    (¬ (scanTemplate env rh rw tmpl.imgs).bestVal < tmpl.thresh →
      (bmMain env tmpl x y rh rw).lastPass = some (scanTemplate env rh rw tmpl.imgs).bestVal ∧
      (∀ lx ly tw th, (scanTemplate env rh rw tmpl.imgs).bestLoc = some (lx, ly) →
        (scanTemplate env rh rw tmpl.imgs).bestSz = some (tw, th) →
        (bmMain env tmpl x y rh rw).result =
          some (x + ((lx + Int.fdiv tw 2 : Int) : ℚ), y + ((ly + Int.fdiv th 2 : Int) : ℚ))) ∧
      ((scanTemplate env rh rw tmpl.imgs).bestLoc = none →
        (bmMain env tmpl x y rh rw).result = none)) := by
  rw [bmMain, if_neg hsz, if_neg (by simp [heq]), if_neg him]
  by_cases hlt : (scanTemplate env rh rw tmpl.imgs).bestVal < tmpl.thresh
  · rw [if_pos hlt]
    exact ⟨rfl, fun _ => ⟨rfl, rfl⟩, fun h => absurd hlt h⟩
  · rw [if_neg hlt]
    refine ⟨?_, fun h => absurd h hlt, fun _ => ⟨?_, ?_, ?_⟩⟩
    · rcases hloc : (scanTemplate env rh rw tmpl.imgs).bestLoc with _ | ⟨lx, ly⟩ <;>
        rcases hsicle : (scanTemplate env rh rw tmpl.imgs).bestSz with _ | ⟨tw, th⟩ <;>
        simp [hloc, hsicle]
    · rcases hloc : (scanTemplate env rh rw tmpl.imgs).bestLoc with _ | ⟨lx, ly⟩ <;>
        rcases hsicle : (scanTemplate env rh rw tmpl.imgs).bestSz with _ | ⟨tw, th⟩ <;>
        simp [hloc, hsicle]
    · intro lx ly tw th hloc hsz2
      simp [hloc, hsz2]
    · intro hloc
      simp [hloc]

/-- Witness for `match_decision_spec`: a passing match at score 0.9 with
best location (2, 3) and scaled size 6×4 inside an ROI at origin (5, 7)
returns the center (5 + 2 + 3, 7 + 3 + 2) = (10, 12). -/
theorem match_decision_spec_witness :
    (bmMain ⟨true, fun _ _ => true, fun _ s => if s = 1 then some (9/10, 2, 3) else none⟩
        ⟨[.img 4 6], 1/2, none⟩ 5 7 10 10).lastVal = 9/10 ∧
    (bmMain ⟨true, fun _ _ => true, fun _ s => if s = 1 then some (9/10, 2, 3) else none⟩
        ⟨[.img 4 6], 1/2, none⟩ 5 7 10 10).lastPass = some (9/10) ∧
    (bmMain ⟨true, fun _ _ => true, fun _ s => if s = 1 then some (9/10, 2, 3) else none⟩
        ⟨[.img 4 6], 1/2, none⟩ 5 7 10 10).result = some (10, 12) := by
  have hacc : scanTemplate
      ⟨true, fun _ _ => true, fun _ s => if s = 1 then some (9/10, 2, 3) else none⟩
      10 10 [VarImg.img 4 6] = ⟨9/10, some (2, 3), some (6, 4)⟩ := by
    simp only [scanTemplate, scanVariants, scalesToTry, List.foldl_cons, List.foldl_nil,
      tryScale]
    norm_num [pyInt]
  have h := match_decision_spec
      ⟨true, fun _ _ => true, fun _ s => if s = 1 then some (9/10, 2, 3) else none⟩
      ⟨[.img 4 6], 1/2, none⟩ 5 7 10 10 (by norm_num) rfl (by simp)
  rw [hacc] at h
  refine ⟨h.1, (h.2.2 (by norm_num)).1, ?_⟩
  have hr := (h.2.2 (by norm_num)).2.1 2 3 6 4 rfl rfl
  rw [hr]
  norm_num [Int.fdiv]

/-- Counterexample to C5 as stated: with threshold −1 and a variant that
fits no scale of a 10×10 region, the search tries no pair, the sentinel −1
is not below the threshold, so the passing branch is taken and `lastPass`
receives −1, yet no location is returned — the claim's assertion that the
returned location then equals the best top-left plus half the size fails,
since there is no returned location at all. -/
theorem match_pass_without_location :
    ¬ (best_match ⟨true, fun _ _ => true, fun _ _ => none⟩ 10 10
        ⟨[.img 200 200], -1, none⟩).lastVal < (-1 : ℚ) ∧
    (best_match ⟨true, fun _ _ => true, fun _ _ => none⟩ 10 10
        ⟨[.img 200 200], -1, none⟩).lastPass = some (-1) ∧
    (best_match ⟨true, fun _ _ => true, fun _ _ => none⟩ 10 10
        ⟨[.img 200 200], -1, none⟩).result = none := by
  have hacc : scanTemplate ⟨true, fun _ _ => true, fun _ _ => none⟩ 10 10
      [VarImg.img 200 200] = ⟨-1, none, none⟩ := by
    simp only [scanTemplate, scanVariants, scalesToTry, List.foldl_cons, List.foldl_nil,
      tryScale]
    norm_num [pyInt]
  have hbm : best_match ⟨true, fun _ _ => true, fun _ _ => none⟩ 10 10
      ⟨[.img 200 200], -1, none⟩ = ⟨-1, some (-1), none⟩ := by
    norm_num [best_match, bmMain, hacc]
  rw [hbm]
  norm_num

/-- Worker-pool size of the batch scheduler:
`min(max(1, os.cpu_count() or 1), len(templates_to_check))`. -/
def numWorkers (cpu n : Nat) : Nat := min (max 1 cpu) n

/-- Embedding of `run_batch_template_checks`: dispatch one Matcher task per template and
collect a name → result map, converting a task that raised into a `None`
entry for that name only. The per-task outcome is an oracle
`taskResult : name → Except error result` (a task raises exactly when the
oracle yields `Except.error`). CPython's `ThreadPoolExecutor` raises
`ValueError` when `max_workers` is not positive, which the embedding
models as the `Except.error` branch on the worker count. -/
def run_batch_template_checks (cpu : Nat)
    (taskResult : String → Except String (Option (ℚ × ℚ)))
    (templates : List (String × Tmpl)) :
    Except String (List (String × Option (Option (ℚ × ℚ)))) :=
  if numWorkers cpu templates.length = 0 then
    Except.error "ValueError: max_workers must be greater than 0"
  else
    Except.ok (templates.map fun nt =>
      (nt.1, match taskResult nt.1 with
        | .ok r => some r
        | .error _ => none))

/-- C3: on a nonempty template map the batch check returns exactly one entry
per requested name, in request order; if the task for one name `n` raises
while a second oracle agrees with the first on every other name, then `n` is
mapped to `None` and every other position carries the same entry as the run
in which that failure did not occur. Returning an `Except.ok` value at all
models the synchronous join: the result exists only once every task has
completed or failed. -/
theorem batch_isolates_failures (cpu : Nat)
    (m1 m2 : String → Except String (Option (ℚ × ℚ)))
    (templates : List (String × Tmpl)) (n : String) (e : String)
    (hne : templates ≠ [])
    (hfail : m1 n = .error e)
    (hagree : ∀ k, k ≠ n → m1 k = m2 k) :
    ∃ out1 out2,
      run_batch_template_checks cpu m1 templates = .ok out1 ∧
      run_batch_template_checks cpu m2 templates = .ok out2 ∧
      out1.map Prod.fst = templates.map Prod.fst ∧
      out1.length = templates.length ∧
      ∀ i (h1 : i < out1.length) (h2 : i < out2.length),
        ((out1.get ⟨i, h1⟩).1 = n → (out1.get ⟨i, h1⟩).2 = none) ∧
        ((out1.get ⟨i, h1⟩).1 ≠ n → out1.get ⟨i, h1⟩ = out2.get ⟨i, h2⟩) := by
  have hw : ¬ numWorkers cpu templates.length = 0 := by
    rcases templates with _ | ⟨t, ts⟩
    · exact absurd rfl hne
    · simp [numWorkers]
  refine ⟨_, _, by rw [run_batch_template_checks, if_neg hw],
    by rw [run_batch_template_checks, if_neg hw], ?_, ?_, ?_⟩
  · rw [List.map_map]; rfl
  · rw [List.length_map]
  · intro i h1 h2
    rw [List.length_map] at h1
    constructor
    · intro hn
      simp only [List.get_map] at hn ⊢
      rw [hn, hfail]
    · intro hn
      simp only [List.get_map] at hn ⊢
      rw [hagree _ hn]

/-- Witness for `batch_isolates_failures` on a two-template batch where the
task for "winrate" raises and the task for "confirm" succeeds. -/
theorem batch_isolates_failures_witness :
    ∃ out1 out2,
      run_batch_template_checks 4
        (fun k => if k = "winrate" then .error "boom" else .ok (some (1, 2)))
        [("winrate", ⟨[], 3/4, none⟩), ("confirm", ⟨[], 4/5, none⟩)] = .ok out1 ∧
      run_batch_template_checks 4
        (fun k => if k = "winrate" then .ok (some (9, 9)) else .ok (some (1, 2)))
        [("winrate", ⟨[], 3/4, none⟩), ("confirm", ⟨[], 4/5, none⟩)] = .ok out2 ∧
      out1.map Prod.fst =
        [("winrate", (⟨[], 3/4, none⟩ : Tmpl)), ("confirm", ⟨[], 4/5, none⟩)].map Prod.fst ∧
      out1.length = 2 ∧
      ∀ i (h1 : i < out1.length) (h2 : i < out2.length),
        ((out1.get ⟨i, h1⟩).1 = "winrate" → (out1.get ⟨i, h1⟩).2 = none) ∧
        ((out1.get ⟨i, h1⟩).1 ≠ "winrate" → out1.get ⟨i, h1⟩ = out2.get ⟨i, h2⟩) := by
  have h := batch_isolates_failures 4
    (fun k => if k = "winrate" then .error "boom" else .ok (some (1, 2)))
    (fun k => if k = "winrate" then .ok (some (9, 9)) else .ok (some (1, 2)))
    [("winrate", ⟨[], 3/4, none⟩), ("confirm", ⟨[], 4/5, none⟩)] "winrate" "boom"
    (by simp) (by simp) (by intro k hk; simp [hk])
  obtain ⟨out1, out2, h1, h2, h3, h4, h5⟩ := h
  exact ⟨out1, out2, h1, h2, h3, by rw [h4]; rfl, h5⟩

/-- C10: calling the batch check with an empty template map makes the worker
count `min(max(1, cpu), 0) = 0`, which the thread pool rejects by raising,
so the call returns no result map; with at least one template the call is
total and returns an `ok` map. -/
theorem batch_empty_rejected (cpu : Nat)
    (taskResult : String → Except String (Option (ℚ × ℚ)))
    (t : String × Tmpl) (ts : List (String × Tmpl)) :
    run_batch_template_checks cpu taskResult [] =
      .error "ValueError: max_workers must be greater than 0" ∧
    numWorkers cpu 0 = 0 ∧
    ∃ out, run_batch_template_checks cpu taskResult (t :: ts) = .ok out := by
  refine ⟨by rw [run_batch_template_checks, if_pos (by simp [numWorkers])],
    by simp [numWorkers], ?_⟩
  exact ⟨_, by rw [run_batch_template_checks, if_neg (by simp [numWorkers])]⟩

/-- The three automation-mode flags of the bot
(`lux_thread`, `lux_EXP`, `full_auto_mirror` module globals). -/
structure ModeState where
  lux_thread : Bool
  lux_EXP : Bool
  full_auto_mirror : Bool
deriving DecidableEq

/-- Embedding of `set_lux_thread_config`: the bot's plain setter writes only its own flag. -/
def set_lux_thread_config (s : ModeState) (b : Bool) : ModeState :=
  ⟨b, s.lux_EXP, s.full_auto_mirror⟩

/-- Embedding of `set_lux_exp_config`: the bot's plain setter writes only its own flag. -/
def set_lux_exp_config (s : ModeState) (b : Bool) : ModeState :=
  ⟨s.lux_thread, b, s.full_auto_mirror⟩

/-- Embedding of `set_full_auto_mirror_config`: the bot's plain setter writes only its own flag. -/
def set_full_auto_mirror_config (s : ModeState) (b : Bool) : ModeState :=
  ⟨s.lux_thread, s.lux_EXP, b⟩

/-- Embedding of `_toggle_thread_lux_mode` in the tuner (bot-visible effect, with the GUI
checkbox variables mirroring the bot flags): when enabling, conditionally
turn off each other active mode through its setter, then set the own flag. -/
def toggleThreadLuxMode (s : ModeState) (enabled : Bool) : ModeState :=
  let s1 := if enabled && s.lux_EXP then set_lux_exp_config s false else s
  let s2 := if enabled && s1.full_auto_mirror then set_full_auto_mirror_config s1 false else s1
  set_lux_thread_config s2 enabled

/-- Embedding of `_toggle_exp_lux_mode` in the tuner (bot-visible effect). -/
def toggleExpLuxMode (s : ModeState) (enabled : Bool) : ModeState :=
  let s1 := if enabled && s.lux_thread then set_lux_thread_config s false else s
  let s2 := if enabled && s1.full_auto_mirror then set_full_auto_mirror_config s1 false else s1
  set_lux_exp_config s2 enabled

/-- Embedding of `_toggle_mirror_full_auto_mode` in the tuner (bot-visible effect). -/
def toggleMirrorFullAutoMode (s : ModeState) (enabled : Bool) : ModeState :=
  let s1 := if enabled && s.lux_thread then set_lux_thread_config s false else s
  let s2 := if enabled && s1.lux_EXP then set_lux_exp_config s1 false else s1
  set_full_auto_mirror_config s2 enabled

/-- The headless hotkey callback path of `_create_mode_toggle_hotkey_cb`
(no GUI, or tuner method missing): `setter_func(not current_value_lambda())`,
here for the Thread-mode hotkey. -/
def hotkeyThreadNoGui (s : ModeState) : ModeState :=
  set_lux_thread_config s (!s.lux_thread)

/-- The headless hotkey callback for the Exp-mode hotkey. -/
def hotkeyExpNoGui (s : ModeState) : ModeState :=
  set_lux_exp_config s (!s.lux_EXP)

/-- The headless hotkey callback for the Mirror-full-auto hotkey. -/
def hotkeyMirrorNoGui (s : ModeState) : ModeState :=
  set_full_auto_mirror_config s (!s.full_auto_mirror)

/-- Number of mode flags that are set. -/
def activeModeCount (s : ModeState) : Nat :=
  (if s.lux_thread then 1 else 0) + (if s.lux_EXP then 1 else 0) +
    (if s.full_auto_mirror then 1 else 0)

/-- Counterexample to C1 as stated: with Exp-mode active and no GUI present,
the Thread-mode hotkey callback calls the bot's plain setter with the negated
current value, leaving both Thread-mode and Exp-mode enabled — two mode flags
true after an activation through a documented setter path. -/
theorem hotkey_no_gui_breaks_exclusivity :
    hotkeyThreadNoGui ⟨false, true, false⟩ = ⟨true, true, false⟩ ∧
    activeModeCount ⟨true, true, false⟩ = 2 := by
  constructor <;> rfl

/-- C1 (amended): activations that go through the tuner's toggle methods —
the GUI checkboxes, and the hotkeys when a GUI is present — force the other
two modes off when enabling one, so afterwards at most one flag is true;
in particular enabling Thread-mode while Exp-mode is active leaves Exp-mode
false and Thread-mode true. The headless hotkey path flips only its own
flag and does not enforce the invariant. -/
theorem gui_toggle_mode_exclusivity (s : ModeState) :
    activeModeCount (toggleThreadLuxMode s true) ≤ 1 ∧
    activeModeCount (toggleExpLuxMode s true) ≤ 1 ∧
    activeModeCount (toggleMirrorFullAutoMode s true) ≤ 1 ∧
    toggleThreadLuxMode ⟨false, true, false⟩ true = ⟨true, false, false⟩ := by
  obtain ⟨a, b, c⟩ := s
  refine ⟨?_, ?_, ?_, rfl⟩ <;> cases a <;> cases b <;> cases c <;> rfl

/-- A full-frame pixel location, as returned by the batch for a template. -/
abbrev Pt := Int × Int

/-- The primary batch results consumed by one sequencer cycle, one optional
location per template of `PRIMARY_CHECK_TEMPLATES`. -/
structure BatchResults where
  winrate : Option Pt
  speech_menu : Option Pt
  confirm : Option Pt
  black_confirm : Option Pt
  black_confirm_v2 : Option Pt
  choice_needed : Option Pt
  fusion_check : Option Pt
  ego_check : Option Pt
  ego_get : Option Pt
  skip : Option Pt
  battle : Option Pt
  chain_battle : Option Pt
  enter : Option Pt
deriving DecidableEq

/-- The observable input actions a cycle can issue, in issue order. -/
inductive CycleAction where
  | winrateCombo
  | clickSpeechMenu (p : Pt)
  | clickFastForward (p : Pt)
  | clickSpeechConfirm (p : Pt)
  | pressEnterEgo
  | waitChoice
  | waitFusion
  | waitEgo
  | clickGenericConfirm (p : Pt)
  | clickSkip (p : Pt)
  | clickContinue (p : Pt)
  | clickVeryHigh (p : Pt)
  | clickAbnoFinal (p : Pt)
  | abnoPostClick
  | clickBattle (p : Pt)
  | clickEnterEncounter (p : Pt)
  | seqClick (tname : String) (p : Pt)
deriving DecidableEq

/-- Whether an action clicks a confirm button (the text-skip chain's confirm
click or the generic confirm-button click). -/
def CycleAction.isConfirmClick : CycleAction → Bool
  | .clickSpeechConfirm _ => true
  | .clickGenericConfirm _ => true
  | _ => false

/-- Inputs of one post-batch sequencer cycle: the mode/setting flags, the
batch results, the current screen id, and oracles for mid-cycle recaptures
(`refreshO`, indexed by call order inside the cycle) and for ad hoc single
`best_match` calls on a captured screen (`matchO`). -/
structure CycleEnv where
  text_skip : Bool
  full_auto_mirror : Bool
  lux_thread : Bool
  lux_EXP : Bool
  batch : BatchResults
  scr0 : Nat
  refreshO : Nat → Option Nat
  matchO : Nat → String → Option Pt

/-- Outcome of one cycle: issued actions, the need-refresh flag at the end
of the cycle, and the two one-shot mode flags. -/
structure CycleOut where
  actions : List CycleAction
  needRefresh : Bool
  lux_thread : Bool
  lux_EXP : Bool
deriving DecidableEq

/-- Tail of the text-skip chain (lines 654-674): click confirm only when the
recaptured frame shows no choice overlay. -/
def speechTail (env : CycleEnv) (acts : List CycleAction) (scr : Nat) : CycleOut :=
  match env.matchO scr "choice_needed" with
  | some _ => ⟨acts, true, env.lux_thread, env.lux_EXP⟩
  | none =>
    match env.matchO scr "confirm" with
    | some cp => ⟨acts ++ [.clickSpeechConfirm cp], true, env.lux_thread, env.lux_EXP⟩
    | none => ⟨acts, true, env.lux_thread, env.lux_EXP⟩

/-- The text-skip chain (lines 629-674): click the speech menu, recapture,
optionally click fast-forward and recapture again, then the confirm tail. -/
def speechBranch (env : CycleEnv) (p : Pt) : CycleOut :=
  match env.refreshO 0 with
  | none => ⟨[.clickSpeechMenu p], true, env.lux_thread, env.lux_EXP⟩
  | some s1 =>
    match env.matchO s1 "fast_forward" with
    | some fp =>
      match env.refreshO 1 with
      | none => ⟨[.clickSpeechMenu p, .clickFastForward fp], true, env.lux_thread, env.lux_EXP⟩
      | some s2 => speechTail env [.clickSpeechMenu p, .clickFastForward fp] s2
    | none => speechTail env [.clickSpeechMenu p] s1

/-- Final steps of the event-skip chain (lines 782-804): click the first of
proceed/commence/commence-battle when present, followed by the fixed
lower-screen click. -/
def abnoFinal (env : CycleEnv) (acts : List CycleAction) (scr : Nat) : CycleOut :=
  match env.matchO scr "proceed" <|> env.matchO scr "commence" <|>
      env.matchO scr "commence_battle" with
  | some fp => ⟨acts ++ [.clickAbnoFinal fp, .abnoPostClick], true, env.lux_thread, env.lux_EXP⟩
  | none => ⟨acts, true, env.lux_thread, env.lux_EXP⟩

/-- Very-high step of the event-skip chain (lines 769-781), taken only in
Mirror-full-auto mode. -/
def abnoVeryHigh (env : CycleEnv) (acts : List CycleAction) (k scr : Nat) : CycleOut :=
  if env.full_auto_mirror then
    match env.matchO scr "very_high" with
    | some vp =>
      match env.refreshO k with
      | none => ⟨acts ++ [.clickVeryHigh vp], true, env.lux_thread, env.lux_EXP⟩
      | some s2 => abnoFinal env (acts ++ [.clickVeryHigh vp]) s2
    | none => abnoFinal env acts scr
  else abnoFinal env acts scr

/-- The event-skip chain (lines 732-805): click skip, recapture, then up to
two continue clicks with recaptures, then the very-high and final steps. -/
def abnoBranch (env : CycleEnv) (p : Pt) : CycleOut :=
  match env.refreshO 0 with
  | none => ⟨[.clickSkip p], true, env.lux_thread, env.lux_EXP⟩
  | some s1 =>
    match env.matchO s1 "continue" with
    | none => abnoVeryHigh env [.clickSkip p] 1 s1
    | some cp =>
      match env.refreshO 1 with
      | none => ⟨[.clickSkip p, .clickContinue cp], true, env.lux_thread, env.lux_EXP⟩
      | some s2 =>
        match env.matchO s2 "continue" with
        | none => abnoVeryHigh env [.clickSkip p, .clickContinue cp] 2 s2
        | some cp2 =>
          match env.refreshO 2 with
          | none => ⟨[.clickSkip p, .clickContinue cp, .clickContinue cp2], true,
              env.lux_thread, env.lux_EXP⟩
          | some s3 =>
            abnoVeryHigh env [.clickSkip p, .clickContinue cp, .clickContinue cp2] 3 s3

/-- Outcome of one automation-mode sub-sequence: issued clicks, the value the
mode flag holds when the block ends the cycle, and the need-refresh flag. -/
structure SeqOut where
  actions : List CycleAction
  flag : Bool
  needRefresh : Bool
deriving DecidableEq

/-- Generic body of a mode sub-sequence: at each non-final step, match the
required template (absent aborts the remainder), click it, recapture
(a failed recapture aborts); the final step only matches and clicks. Every
path ends with the mode flag cleared and need-refresh set, which is the
literal effect of the source calling the mode setter with `False` and
setting `local_need_refresh = True` before every `continue`. -/
def luxSeqRun (rO : Nat → Option Nat) (mO : Nat → String → Option Pt) :
    List String → Nat → Nat → List CycleAction → SeqOut
  | [], _, _, acts => ⟨acts, false, true⟩
  | [last], _, scr, acts =>
    match mO scr last with
    | some p => ⟨acts ++ [.seqClick last p], false, true⟩
    | none => ⟨acts, false, true⟩
  | name :: next :: rest, k, scr, acts =>
    match mO scr name with
    | none => ⟨acts, false, true⟩
    | some p =>
      match rO k with
      | none => ⟨acts ++ [.seqClick name p], false, true⟩
      | some scr2 => luxSeqRun rO mO (next :: rest) (k + 1) scr2 (acts ++ [.seqClick name p])

/-- Steps A-1 to A-6 of the Thread-mode sub-sequence (lines 850-966). -/
def threadLuxSteps : List String :=
  ["drive", "luxcavations", "select_thread_lux", "lux_enter", "thread_lux_battle", "battle"]

/-- Steps B-1 to B-5 of the Exp-mode sub-sequence (lines 967-1060). -/
def expLuxSteps : List String :=
  ["drive", "luxcavations", "select_exp_lux", "exp_lux_enter", "battle"]

/-- The Thread-mode block: optional entry refresh, abort when no screen,
then the six steps. -/
def threadLuxSeq (rO : Nat → Option Nat) (mO : Nat → String → Option Pt)
    (needRefresh0 : Bool) (scr0 : Option Nat) : SeqOut :=
  match (if needRefresh0 then rO 0 else scr0) with
  | none => ⟨[], false, true⟩
  | some s => luxSeqRun rO mO threadLuxSteps 1 s []

/-- The Exp-mode block: optional entry refresh, abort when no screen, then
the five steps. -/
def expLuxSeq (rO : Nat → Option Nat) (mO : Nat → String → Option Pt)
    (needRefresh0 : Bool) (scr0 : Option Nat) : SeqOut :=
  match (if needRefresh0 then rO 0 else scr0) with
  | none => ⟨[], false, true⟩
  | some s => luxSeqRun rO mO expLuxSteps 1 s []

/-- Branches 4 (event-skip), 5 (battle), 6 (enter) and the mode blocks,
reached when no confirm button matched. -/
def afterConfirm (env : CycleEnv) : CycleOut :=
  match env.batch.skip with
  | some p => abnoBranch env p
  | none =>
    match env.batch.battle <|> env.batch.chain_battle with
    | some p => ⟨[.clickBattle p], true, env.lux_thread, env.lux_EXP⟩
    | none =>
      match env.batch.enter with
      | some p => ⟨[.clickEnterEncounter p], true, env.lux_thread, env.lux_EXP⟩
      | none =>
        if env.lux_thread then
          let o := threadLuxSeq env.refreshO env.matchO false (some env.scr0)
          ⟨o.actions, o.needRefresh, o.flag, env.lux_EXP⟩
        else if env.lux_EXP then
          let o := expLuxSeq env.refreshO env.matchO false (some env.scr0)
          ⟨o.actions, o.needRefresh, env.lux_thread, o.flag⟩
        else ⟨[], false, env.lux_thread, env.lux_EXP⟩

/-- Branch 3-F (lines 717-730): the generic confirm click, trying
black-confirm, then black-confirm-v2, then confirm, in that order. -/
def confirmAndRest (env : CycleEnv) : CycleOut :=
  match env.batch.black_confirm <|> env.batch.black_confirm_v2 <|> env.batch.confirm with
  | some p => ⟨[.clickGenericConfirm p], true, env.lux_thread, env.lux_EXP⟩
  | none => afterConfirm env

/-- The overlay block (lines 676-716), entered only when Mirror-full-auto is
off: EGO-get prompt dismissed with enter; otherwise a choice, fusion, or
pending-EGO overlay is waited out; any of these ends the cycle before the
generic confirm rule. -/
def overlayAndRest (env : CycleEnv) : CycleOut :=
  if env.full_auto_mirror then confirmAndRest env
  else
    match env.batch.ego_get with
    | some _ => ⟨[.pressEnterEgo], true, env.lux_thread, env.lux_EXP⟩
    | none =>
      match env.batch.choice_needed with
      | some _ => ⟨[.waitChoice], true, env.lux_thread, env.lux_EXP⟩
      | none =>
        match env.batch.fusion_check with
        | some _ => ⟨[.waitFusion], true, env.lux_thread, env.lux_EXP⟩
        | none =>
          match env.batch.ego_check with
          | some _ => ⟨[.waitEgo], true, env.lux_thread, env.lux_EXP⟩
          | none => confirmAndRest env

/-- One post-batch sequencer cycle of `limbus_bot` (lines 615-1061): the
win-rate shortcut, then the text-skip chain, then the overlay block, the
generic confirm, the event-skip chain, battle, enter, and the mode blocks. -/
def cycleStep (env : CycleEnv) : CycleOut :=
  match env.batch.winrate with
  | some _ => ⟨[.winrateCombo], true, env.lux_thread, env.lux_EXP⟩
  | none =>
    match (if env.text_skip then env.batch.speech_menu else none) with
    | some p => speechBranch env p
    | none => overlayAndRest env

/-- Every run of a mode sub-sequence body ends with the flag cleared and
need-refresh set, whatever the oracle answers. -/
theorem luxSeqRun_clears (rO : Nat → Option Nat) (mO : Nat → String → Option Pt) :
    ∀ (steps : List String) (k scr : Nat) (acts : List CycleAction),
      (luxSeqRun rO mO steps k scr acts).flag = false ∧
      (luxSeqRun rO mO steps k scr acts).needRefresh = true
  | [], _, _, _ => ⟨rfl, rfl⟩
  | [last], k, scr, acts => by
    rw [luxSeqRun]
    rcases mO scr last with _ | p <;> exact ⟨rfl, rfl⟩
  | name :: next :: rest, k, scr, acts => by
    rw [luxSeqRun]
    rcases mO scr name with _ | p
    · exact ⟨rfl, rfl⟩
    · rcases rO k with _ | scr2
      · exact ⟨rfl, rfl⟩
      · exact luxSeqRun_clears rO mO (next :: rest) (k + 1) scr2 (acts ++ [.seqClick name p])

/-- C8: on every path through a Thread-mode or Exp-mode sub-sequence block —
entry recapture failure, a missing required match at any step, a failed
mid-sequence recapture, or full completion — the block ends the cycle with
the mode flag false and need-refresh set. -/
theorem mode_sequence_one_shot (rO : Nat → Option Nat) (mO : Nat → String → Option Pt)
    (nr : Bool) (scr0 : Option Nat) :
    (threadLuxSeq rO mO nr scr0).flag = false ∧
    (threadLuxSeq rO mO nr scr0).needRefresh = true ∧
    (expLuxSeq rO mO nr scr0).flag = false ∧
    (expLuxSeq rO mO nr scr0).needRefresh = true := by
  rw [threadLuxSeq, expLuxSeq]
  rcases (if nr then rO 0 else scr0) with _ | s
  · exact ⟨rfl, rfl, rfl, rfl⟩
  · refine ⟨(luxSeqRun_clears rO mO threadLuxSteps 1 s []).1,
      (luxSeqRun_clears rO mO threadLuxSteps 1 s []).2,
      (luxSeqRun_clears rO mO expLuxSteps 1 s []).1,
      (luxSeqRun_clears rO mO expLuxSteps 1 s []).2⟩

/-- Counterexample to C2 as stated: with Mirror-full-auto on, the overlay
block is skipped entirely, so in a cycle whose primary batch matched both
the choice overlay and a confirm button the generic confirm click is issued
— the overlay-wait rule does not block the confirm rule for every
combination of BotState flags. -/
theorem mirror_auto_confirm_despite_choice :
    (cycleStep ⟨false, true, false, false,
        ⟨none, none, some (7, 7), none, none, some (5, 5), none, none, none, none,
          none, none, none⟩, 0, fun _ => none, fun _ _ => none⟩).actions =
      [.clickGenericConfirm (7, 7)] ∧
    ((⟨none, none, some (7, 7), none, none, some (5, 5), none, none, none, none,
        none, none, none⟩ : BatchResults)).choice_needed.isSome = true ∧
    ((cycleStep ⟨false, true, false, false,
        ⟨none, none, some (7, 7), none, none, some (5, 5), none, none, none, none,
          none, none, none⟩, 0, fun _ => none, fun _ _ => none⟩).actions.any
      CycleAction.isConfirmClick) = true := by
  exact ⟨rfl, rfl, rfl⟩

/-- C2 (amended): when Mirror-full-auto is off and neither the win-rate rule
nor the text-skip chain fires, a primary-batch choice or fusion overlay makes
the overlay block end the cycle before the generic confirm rule: need-refresh
is set and no confirm click of any kind is issued that cycle. -/
theorem overlay_blocks_confirm (env : CycleEnv)
    (hm : env.full_auto_mirror = false)
    (hw : env.batch.winrate = none)
    (hs : env.text_skip = false ∨ env.batch.speech_menu = none)
    (ho : env.batch.choice_needed.isSome ∨ env.batch.fusion_check.isSome) :
    (cycleStep env).needRefresh = true ∧
    ∀ a ∈ (cycleStep env).actions, a.isConfirmClick = false := by
  have hstep : cycleStep env = overlayAndRest env := by
    rw [cycleStep, hw]
    rcases hs with h | h <;> simp [h]
  rw [hstep, overlayAndRest, hm]
  simp only [Bool.false_eq_true, if_false]
  rcases hg : env.batch.ego_get with _ | pg
  · rcases hc : env.batch.choice_needed with _ | pc
    · rcases hf : env.batch.fusion_check with _ | pf
      · exfalso
        rcases ho with h | h
        · rw [hc] at h; exact absurd h (by simp)
        · rw [hf] at h; exact absurd h (by simp)
      · exact ⟨rfl, by intro a ha; simp at ha; simp [ha, CycleAction.isConfirmClick]⟩
    · exact ⟨rfl, by intro a ha; simp at ha; simp [ha, CycleAction.isConfirmClick]⟩
  · exact ⟨rfl, by intro a ha; simp at ha; simp [ha, CycleAction.isConfirmClick]⟩

/-- Witness for `overlay_blocks_confirm`: Mirror-full-auto off, choice and
confirm both matched; the cycle waits and issues no confirm click. -/
theorem overlay_blocks_confirm_witness :
    (cycleStep ⟨false, false, false, false,
        ⟨none, none, some (7, 7), none, none, some (5, 5), none, none, none, none,
          none, none, none⟩, 0, fun _ => none, fun _ _ => none⟩).needRefresh = true ∧
    ∀ a ∈ (cycleStep ⟨false, false, false, false,
        ⟨none, none, some (7, 7), none, none, some (5, 5), none, none, none, none,
          none, none, none⟩, 0, fun _ => none, fun _ _ => none⟩).actions,
      a.isConfirmClick = false := by
  exact overlay_blocks_confirm _ rfl rfl (Or.inl rfl) (Or.inl rfl)

/-- Configuration of the mouse-shake failsafe:
`MOUSE_SHAKE_DISTANCE_THRESHOLD`, `MOUSE_SHAKE_TIME_WINDOW`,
`MOUSE_SHAKES_TO_PAUSE`. -/
structure ShakeCfg where
  dist : ℚ
  window : ℚ
  toPause : Nat

/-- The configured values of the source (200 px, 0.15 s, 3 shakes). -/
def shakeDefaults : ShakeCfg := ⟨200, 15/100, 3⟩

/-- Mutable state of `check_mouse_shake_failsafe`: `LAST_MOUSE_POS`,
`LAST_MOUSE_TIME`, `MOUSE_SHAKES_DETECTED`, and the pause gate
(`pause_event`). -/
structure ShakeState where
  lastPos : Option (Int × Int)
  lastTime : ℚ
  count : Nat
  paused : Bool
deriving DecidableEq

/-- One call of `check_mouse_shake_failsafe` (lines 481-538) on a pointer
sample `(pos, t)`. The Euclidean distance test
`sqrt(dx² + dy²) > threshold` is expressed on squares,
`dx² + dy² > threshold²`, which is equivalent since both sides of the
original comparison are nonnegative. A sample whose displacement exceeds the
threshold within the open time window (and after more than 1 ms) increments
the counter; reaching the configured count sets the pause gate (it stays set
if already set) and resets the counter; any other sample with a previous
position resets the counter and leaves the gate unchanged. -/
def shakeStep (cfg : ShakeCfg) (s : ShakeState) (pos : Int × Int) (t : ℚ) : ShakeState :=
  match s.lastPos with
  | none => ⟨some pos, t, s.count, s.paused⟩
  | some p =>
    let dt := t - s.lastTime
    if dt < cfg.window ∧ dt > 1/1000 then
      let d2 : ℚ := ((pos.1 - p.1 : Int) : ℚ) ^ 2 + ((pos.2 - p.2 : Int) : ℚ) ^ 2
      if d2 > cfg.dist ^ 2 then
        if s.count + 1 ≥ cfg.toPause then ⟨some pos, t, 0, true⟩
        else ⟨some pos, t, s.count + 1, s.paused⟩
      else ⟨some pos, t, 0, s.paused⟩
    else ⟨some pos, t, 0, s.paused⟩

/-- A sample qualifies as a shake for the current state: a previous position
exists, the time gap lies strictly inside (1 ms, window), and the squared
displacement exceeds the squared distance threshold. -/
def qualShake (cfg : ShakeCfg) (s : ShakeState) (pos : Int × Int) (t : ℚ) : Prop :=
  match s.lastPos with
  | none => False
  | some p =>
    t - s.lastTime < cfg.window ∧ t - s.lastTime > 1/1000 ∧
    ((pos.1 - p.1 : Int) : ℚ) ^ 2 + ((pos.2 - p.2 : Int) : ℚ) ^ 2 > cfg.dist ^ 2

/-- C9: a qualifying shake increments the counter, and on reaching the
configured count sets the pause gate and resets the counter to zero; a
non-qualifying sample (small displacement, a gap outside the window, or a
sub-millisecond gap) resets the counter without changing the gate; and with
count 3 the gate is still clear after one and after two consecutive
qualifying shakes, becoming set with the counter reset exactly at the
third. -/
theorem shake_failsafe_spec (cfg : ShakeCfg) (s : ShakeState) (pos x1 x2 x3 : Int × Int)
    (t t1 t2 t3 : ℚ) :
    (qualShake cfg s pos t →
      shakeStep cfg s pos t =
        (if s.count + 1 ≥ cfg.toPause then ⟨some pos, t, 0, true⟩
         else ⟨some pos, t, s.count + 1, s.paused⟩)) ∧
    (s.lastPos.isSome → ¬ qualShake cfg s pos t →
      shakeStep cfg s pos t = ⟨some pos, t, 0, s.paused⟩) ∧
    (s.lastPos = none → shakeStep cfg s pos t = ⟨some pos, t, s.count, s.paused⟩) ∧
    (cfg.toPause = 3 → s.count = 0 → s.paused = false →
      qualShake cfg s x1 t1 →
      qualShake cfg (shakeStep cfg s x1 t1) x2 t2 →
      qualShake cfg (shakeStep cfg (shakeStep cfg s x1 t1) x2 t2) x3 t3 →
      (shakeStep cfg s x1 t1).paused = false ∧
      (shakeStep cfg s x1 t1).count = 1 ∧
      (shakeStep cfg (shakeStep cfg s x1 t1) x2 t2).paused = false ∧
      (shakeStep cfg (shakeStep cfg s x1 t1) x2 t2).count = 2 ∧
      (shakeStep cfg (shakeStep cfg (shakeStep cfg s x1 t1) x2 t2) x3 t3).paused = true ∧
      (shakeStep cfg (shakeStep cfg (shakeStep cfg s x1 t1) x2 t2) x3 t3).count = 0) := by
  have hq : ∀ (s' : ShakeState) (p : Int × Int) (u : ℚ), qualShake cfg s' p u →
      shakeStep cfg s' p u =
        (if s'.count + 1 ≥ cfg.toPause then ⟨some p, u, 0, true⟩
         else ⟨some p, u, s'.count + 1, s'.paused⟩) := by
    intro s' p u hqs
    rcases hl : s'.lastPos with _ | q
    · simp only [qualShake, hl] at hqs
    · simp only [qualShake, hl] at hqs
      obtain ⟨h1, h2, h3⟩ := hqs
      simp only [shakeStep, hl]
      rw [if_pos (And.intro h1 h2), if_pos h3]
  refine ⟨hq s pos t, ?_, ?_, ?_⟩
  · intro hsome hnq
    rcases hl : s.lastPos with _ | q
    · rw [hl] at hsome; exact absurd hsome (by simp)
    · simp only [qualShake, hl] at hnq
      simp only [shakeStep, hl]
      by_cases hdt : t - s.lastTime < cfg.window ∧ t - s.lastTime > 1/1000
      · rw [if_pos hdt]
        have hd2 : ¬ ((pos.1 - q.1 : Int) : ℚ) ^ 2 + ((pos.2 - q.2 : Int) : ℚ) ^ 2 >
            cfg.dist ^ 2 := fun hd => hnq ⟨hdt.1, hdt.2, hd⟩
        rw [if_neg hd2]
      · rw [if_neg hdt]
  · intro hl; simp only [shakeStep, hl]
  · intro hp3 hc0 hpf hq1 hq2 hq3
    have e1 : shakeStep cfg s x1 t1 = ⟨some x1, t1, 1, s.paused⟩ := by
      rw [hq s x1 t1 hq1, hc0, hp3, if_neg (by norm_num)]
    have e2 : shakeStep cfg (shakeStep cfg s x1 t1) x2 t2 =
        ⟨some x2, t2, 2, s.paused⟩ := by
      rw [hq _ x2 t2 hq2, e1, hp3]
      rw [if_neg (by norm_num)]
    have e3 : shakeStep cfg (shakeStep cfg (shakeStep cfg s x1 t1) x2 t2) x3 t3 =
        ⟨some x3, t3, 0, true⟩ := by
      rw [hq _ x3 t3 hq3, e2, hp3]
      rw [if_pos (by norm_num)]
    rw [e3, e2, e1, hpf]
    exact ⟨rfl, rfl, rfl, rfl, rfl, rfl⟩

/-- Witness for `shake_failsafe_spec` at the source's configuration
(200 px, 0.15 s, 3): three 300-px jumps 0.1 s apart set the gate at the
third sample exactly, with the counter reset. -/
theorem shake_failsafe_spec_witness :
    (shakeStep shakeDefaults ⟨some (0, 0), 0, 0, false⟩ (300, 0) (1/10)).paused = false ∧
    (shakeStep shakeDefaults
      (shakeStep shakeDefaults ⟨some (0, 0), 0, 0, false⟩ (300, 0) (1/10))
      (0, 0) (2/10)).paused = false ∧
    (shakeStep shakeDefaults
      (shakeStep shakeDefaults
        (shakeStep shakeDefaults ⟨some (0, 0), 0, 0, false⟩ (300, 0) (1/10))
        (0, 0) (2/10)) (300, 0) (3/10)).paused = true ∧
    (shakeStep shakeDefaults
      (shakeStep shakeDefaults
        (shakeStep shakeDefaults ⟨some (0, 0), 0, 0, false⟩ (300, 0) (1/10))
        (0, 0) (2/10)) (300, 0) (3/10)).count = 0 := by
  have h := shake_failsafe_spec shakeDefaults ⟨some (0, 0), 0, 0, false⟩ (0, 0)
    (300, 0) (0, 0) (300, 0) 0 (1/10) (2/10) (3/10)
  have hstep1 : shakeStep shakeDefaults ⟨some (0, 0), 0, 0, false⟩ (300, 0) (1/10) =
      ⟨some (300, 0), 1/10, 1, false⟩ := by
    rw [shakeStep]
    norm_num [shakeDefaults]
  have hstep2 : shakeStep shakeDefaults ⟨some (300, 0), 1/10, 1, false⟩ (0, 0) (2/10) =
      ⟨some (0, 0), 2/10, 2, false⟩ := by
    rw [shakeStep]
    norm_num [shakeDefaults]
  have h4 := h.2.2.2 rfl rfl rfl
    (by rw [qualShake]; norm_num [shakeDefaults])
    (by rw [hstep1, qualShake]; norm_num [shakeDefaults])
    (by rw [hstep1, hstep2, qualShake]; norm_num [shakeDefaults])
  exact ⟨h4.1, h4.2.2.1, h4.2.2.2.2.1, h4.2.2.2.2.2⟩

end WinRate
